import Mathlib

/-!
Verification of the build-graph resolution and environment composition engine
of the VapourSynth plugin build system (scripts/build.py and scripts/utils.py).

The Python code is shallowly embedded as executable Lean definitions:

* Python dicts become association lists (`List (String × α)`) operated on by
  `dictGet` / `dictSet` / `dictUpdate`, which reproduce dict semantics exactly
  on duplicate-free lists (a Python dict can never hold a key twice).
* The Python `set` used for cycle detection (`building_deps`) becomes a
  duplicate-free `List String` held in insertion order; `add` appends a fresh
  key and `discard` erases it — membership and these two mutations are
  order-insensitive, exactly like the set.  The one place the set is
  *iterated* (the `" -> ".join` of the cycle message) goes through the
  `setIterOrder` oracle of `ExtWorld`, because a CPython set has no defined
  iteration order (string hashing is randomized per process): the oracle is
  handed the set's contents and answers with the enumeration the join sees,
  and nothing constrains it unless a theorem says so.
* External collaborators (the ambient process environment, the filesystem,
  the downloader's hash verifier, the process runner, and the toolchain file
  lookups) are supplied as an explicit record of oracle functions (`ExtWorld`),
  mirroring the interface boundary of spec section 6.
* Exceptions become an `Option Err` result threaded with the mutable state;
  the `try/finally` of `build_dependency` becomes an explicit post-processing
  of the result, which runs on every exit path exactly as `finally` does.
* Recursion through the dependency catalogue is made total with an explicit
  `fuel` parameter; exhausting fuel yields the distinguished error
  `Err.outOfFuel`, which corresponds to no Python behaviour and is never a
  cycle error.
-/


/-! ### Association lists: the embedding of Python dicts -/

/-- Python `d.get(k)` / `k in d` lookup on an association list. -/
def dictGet {α : Type} : List (String × α) → String → Option α
  | [], _ => none
  | p :: rest, k => if p.1 = k then some p.2 else dictGet rest k

/-- Python `d[k] = v`: overwrite the value in place if the key is present
(keeping its position, as dicts do), otherwise append the new binding. -/
def dictSet {α : Type} : List (String × α) → String → α → List (String × α)
  | [], k, v => [(k, v)]
  | p :: rest, k, v => if p.1 = k then (k, v) :: rest else p :: dictSet rest k v

/-- Python `d.update(other)`: fold `dictSet` over the other dict's items. -/
def dictUpdate {α : Type} (l other : List (String × α)) : List (String × α) :=
  other.foldl (fun acc kv => dictSet acc kv.1 kv.2) l

/-! ### String replacement and variable substitution

`EnvironmentManager.substitute_vars` (utils.py lines 147-162) iterates the
environment's items in order and performs `str.replace` of the literal
pattern `\x7bKEY\x7d` on the *evolving* result string.  Python's
`str.replace` replaces every non-overlapping occurrence, scanning left to
right; `replaceAllGo` reproduces that (the fuel argument only makes the
recursion structural and is always supplied large enough to be irrelevant:
each step consumes at least one character of the subject). -/

def replaceAllGo : Nat → List Char → List Char → List Char → List Char
  | 0, s, _, _ => s
  | fuel + 1, s, pat, rep =>
    match s with
    | [] => []
    | c :: rest =>
      if pat ≠ [] ∧ pat.isPrefixOf (c :: rest) then
        rep ++ replaceAllGo fuel ((c :: rest).drop pat.length) pat rep
      else
        c :: replaceAllGo fuel rest pat rep

/-- Python `s.replace(pat, rep)` (for the non-empty patterns the code uses). -/
def strReplace (s pat rep : String) : String :=
  String.mk (replaceAllGo (s.data.length + 1) s.data pat.data rep.data)

/-- `EnvironmentManager.substitute_vars`: one `str.replace` per environment
key, in the environment's iteration order, applied to the evolving result. -/
def substituteVars (text : String) (env : List (String × String)) : String :=
  env.foldl (fun result kv => strReplace result ("\x7b" ++ kv.1 ++ "\x7d") kv.2) text

/-! ### The platform matcher

`PlatformMatcher.match` (utils.py lines 33-48) applies Python `re.match`
(prefix-anchored) and treats a pattern that fails to compile as a non-match.
The configuration patterns this system uses are built from literal
characters, `.` and a postfix `*`; the embedded engine supports exactly that
subset and treats any other metacharacter as a pattern that fails to
compile.  `.` matches any character (the embedded platform strings contain
no newlines, so Python's newline exclusion is irrelevant here). -/

inductive RAtom where
  | dot
  | lit (c : Char)
deriving DecidableEq, Repr

def isRegexSpecial (c : Char) : Bool :=
  c = '(' || c = ')' || c = '|' || c = '[' || c = ']' || c = '\\' ||
  c = '+' || c = '?' || c = '^' || c = '$' || c = '\x7b' || c = '\x7d'

def regexAtomOf (c : Char) : RAtom :=
  if c = '.' then RAtom.dot else RAtom.lit c

def parseRegex : List Char → Option (List (RAtom × Bool))
  | [] => some []
  | '*' :: _ => none
  | c :: '*' :: rest =>
    if isRegexSpecial c then none
    else (parseRegex rest).map (fun r => (regexAtomOf c, true) :: r)
  | c :: rest =>
    if isRegexSpecial c then none
    else (parseRegex rest).map (fun r => (regexAtomOf c, false) :: r)

def regexAtomMatch : RAtom → Char → Bool
  | RAtom.dot, _ => true
  | RAtom.lit c, d => c = d

/-- Prefix-anchored matching of a parsed pattern, `re.match` style: succeeds
iff some prefix of the subject is in the pattern's language.  The fuel is
always at least `ps.length + s.length + 1`, which every recursion preserves
(each call strictly shrinks `ps.length + s.length`). -/
def rmatchGo : Nat → List (RAtom × Bool) → List Char → Bool
  | 0, _, _ => false
  | fuel + 1, ps, s =>
    match ps with
    | [] => true
    | (a, false) :: rest =>
      match s with
      | [] => false
      | c :: cs => regexAtomMatch a c && rmatchGo fuel rest cs
    | (a, true) :: rest =>
      rmatchGo fuel rest s ||
        (match s with
         | [] => false
         | c :: cs => regexAtomMatch a c && rmatchGo fuel ((a, true) :: rest) cs)

/-- `PlatformMatcher.match(pattern, platform)`. -/
def platformMatch (pattern platform : String) : Bool :=
  match parseRegex pattern.data with
  | none => false
  | some r => rmatchGo (r.length + platform.data.length + 1) r platform.data

/-! ### Configuration data

The YAML configuration sections the engine consumes, as structured data.
A platform rule set is an ordered list of `(regex pattern, value)` pairs
(YAML mappings preserve declaration order).  A command entry is either a
bare string or a mapping with a `cmd` and an optional `cwd`. -/

inductive CmdEntry where
  | plain (cmd : String)
  | withCwd (cwd : Option String) (cmd : String)
deriving DecidableEq, Repr

structure BuildConfig where
  env : List (String × String)
  commands : List CmdEntry
deriving DecidableEq, Repr

/-- A version-specific dependency configuration (a `DependencyNode`):
`type`/`source`/`hash`/`tag` describe the source, `dependencies` is a
platform rule set of `(name, version)` reference lists, and `build` is a
platform rule set of build configurations. -/
structure VersionConfig where
  type : String
  source : String
  hash : Option String
  tag : Option String
  dependencies : List (String × List (String × String))
  build : List (String × BuildConfig)
deriving DecidableEq, Repr

structure DepConfig where
  versions : List (String × VersionConfig)
deriving DecidableEq, Repr

/-- The dependency catalogue (the `dependencies:` mapping of
`dependencies.yml` or of the plugin config). -/
abbrev Catalogue := List (String × DepConfig)

/-- A plugin's global `env:` section: a platform rule set of environment
fragments. -/
abbrev GlobalEnvRules := List (String × List (String × String))

/-- One release entry of a plugin config (only the fields the verified
engine reads). -/
structure ReleaseConfig where
  version : String
  dependencies : List (String × List (String × String))
  build : List (String × BuildConfig)
deriving DecidableEq, Repr

/-! ### BuildConfigResolver (utils.py lines 304-359): first-match selection -/

/-- `BuildConfigResolver.get_build_config`: first pattern that matches wins. -/
def getBuildConfig : List (String × BuildConfig) → String → Option BuildConfig
  | [], _ => none
  | (pat, bc) :: rest, platform =>
    if platformMatch pat platform then some bc else getBuildConfig rest platform

/-- `BuildConfigResolver.get_artifacts`: first match wins, no match gives `[]`. -/
def getArtifacts : List (String × List String) → String → List String
  | [], _ => []
  | (pat, arts) :: rest, platform =>
    if platformMatch pat platform then arts else getArtifacts rest platform

def getDependenciesLoop : List (String × List (String × String)) → String → List (String × String)
  | [], _ => []
  | (pat, deps) :: rest, platform =>
    if platformMatch pat platform then deps else getDependenciesLoop rest platform

/-- `BuildConfigResolver.get_dependencies`: an empty/absent section gives
`[]` (the `if not deps_config` guard), otherwise first match wins. -/
def getDependencies (depsConfig : List (String × List (String × String)))
    (platform : String) : List (String × String) :=
  if depsConfig = [] then [] else getDependenciesLoop depsConfig platform

/-- Modelled from the spec (section 4.3): `selectForPlatform(ruleSet, platform)`
returns the value of the first pattern in declared order matching the
platform, `none` when no pattern matches.  Used only to compare the source's
three resolver functions against the spec's words. -/
def selectForPlatform {α : Type} (rules : List (String × α)) (platform : String) : Option α :=
  (rules.find? (fun r => platformMatch r.1 platform)).map (fun r => r.2)

/-! ### EnvironmentManager.merge_global_env (utils.py lines 164-186) -/

/-- `EnvironmentManager.merge_global_env`: iterate every pattern of the
global `env:` rule set in declared order; for each matching pattern, write
each of its variables into the merged dict (overwriting prior values). -/
def mergeGlobalEnv (configEnv : GlobalEnvRules) (platform : String) : List (String × String) :=
  configEnv.foldl
    (fun merged pr =>
      if platformMatch pr.1 platform then
        pr.2.foldl (fun m kv => dictSet m kv.1 kv.2) merged
      else merged)
    []

/-- First-of-two-options choice, used to phrase "later writes win" specs. -/
def optOr {α : Type} : Option α → Option α → Option α
  | some v, _ => some v
  | none, b => b

/-- The last binding of `k` in an environment fragment (later bindings of a
fragment override earlier ones). -/
def findLastBinding : List (String × String) → String → Option String
  | [], _ => none
  | kv :: rest, k => optOr (findLastBinding rest k) (if kv.1 = k then some kv.2 else none)

/-- Modelled from the spec (section 4.2 step 2): last-match-wins per key
across ALL matching patterns, evaluated in declared order — the value of `k`
is the one written by the last matching pattern that binds `k`. -/
def lastMatchValue : GlobalEnvRules → String → String → Option String
  | [], _, _ => none
  | (pat, frag) :: rest, platform, k =>
    optOr (lastMatchValue rest platform k)
      (if platformMatch pat platform then findLastBinding frag k else none)

/-! ### The per-command accumulation policy (build.py lines 236-253) -/

/-- The accumulation of `build_config['env']` into `build_env` inside
`DependencyBuilder._execute_build`: substitute each value against the
builder's own environment, then set-if-unset / append-with-space when both
sides are non-empty / otherwise keep whichever side is non-empty (Python's
`value or existing_value`). -/
def mergeBuildConfigEnv (buildEnv : List (String × String))
    (frag : List (String × String)) (senv : List (String × String)) :
    List (String × String) :=
  frag.foldl
    (fun acc kv =>
      let value := substituteVars kv.2 senv
      match dictGet acc kv.1 with
      | some existing =>
        if existing ≠ "" ∧ value ≠ "" then dictSet acc kv.1 (existing ++ " " ++ value)
        else dictSet acc kv.1 (if value ≠ "" then value else existing)
      | none => dictSet acc kv.1 value)
    buildEnv

/-! ### CrossCompilingToolchainManager (utils.py lines 456-581) -/

/-- `get_toolchain_env_vars`, with the toolchain config's `binaries` map and
resolved sysroot supplied by the caller (they come from the cached
`toolchains.yml` lookup, an external collaborator): uppercase each tool name,
inject `SYSROOT`, and set `--sysroot` compile/link flags when a sysroot is
present. -/
def getToolchainEnvVars (binaries : List (String × String)) (sysroot : Option String) :
    List (String × String) :=
  let env := binaries.foldl (fun acc kv => dictSet acc kv.1.toUpper kv.2) []
  match sysroot with
  | none => env
  | some s =>
    let env := dictSet env "SYSROOT" s
    let env := dictSet env "CFLAGS" ("--sysroot=" ++ s)
    let env := dictSet env "CXXFLAGS" ("--sysroot=" ++ s)
    dictSet env "LDFLAGS" ("--sysroot=" ++ s)

/-- `CrossCompilingToolchainManager.update_build_env` (utils.py lines
551-581), with the toolchain environment and the toolchain bin directory
supplied by the caller.  For each toolchain variable: if the key is already
present, append with a space only when BOTH the new value and the existing
value are non-empty (otherwise the existing value is left untouched); if the
key is absent, set it.  Afterwards the bin directory, when present, is
prepended to `PATH`. -/
def updateBuildEnv (buildEnv : List (String × String))
    (toolchainEnv : List (String × String)) (binPath : Option String) :
    List (String × String) :=
  let be := toolchainEnv.foldl
    (fun acc kv =>
      match dictGet acc kv.1 with
      | some existing =>
        if kv.2 ≠ "" ∧ existing ≠ "" then dictSet acc kv.1 (existing ++ " " ++ kv.2)
        else acc
      | none => dictSet acc kv.1 kv.2)
    buildEnv
  match binPath with
  | none => be
  | some bp =>
    match dictGet be "PATH" with
    | some p => dictSet be "PATH" (bp ++ ":" ++ p)
    | none => dictSet be "PATH" bp

/-! ### External collaborators (spec section 6)

`ExtWorld` bundles the boundary interfaces the engine calls: the ambient process
environment (`os.environ`), filesystem existence checks, the downloader's
hash verifier, the shell process runner of `_execute_build`, the VCS client
invocations (also `subprocess.run`), and the toolchain-file lookups used by
`get_default_env`.  `download_file` has no effect observable by the engine
beyond the later `fileExists`/`verifyHash` answers, so it needs no oracle.
`setIterOrder` is not an interface of spec section 6 but the remaining piece
of implementation-defined behaviour the engine observes: the iteration order
of the `building_deps` set when `build_dependency` joins it into the cycle
message (build.py line 141).  CPython defines no order for set iteration, so
the embedding asks the oracle: it receives the set's contents (in insertion
order) and returns the enumeration the join sees.  An *admissible* answer is
any permutation of the contents; theorems assume nothing about it unless
they say so. -/

structure ExtWorld where
  osEnviron : List (String × String)
  fileExists : String → Bool
  verifyHash : String → String → Bool
  runShell : String → String → List (String × String) → Int
  runGit : List String → Option String → Int
  mesonCrossFile : String → Option String
  cmakeToolchainFile : String → Option String
  toolchainTriplet : String → Option String
  setIterOrder : List String → List String

/-- The exceptions the engine can raise, by raise site:
`cycle` is the circular-dependency `ValueError` of `build_dependency` (its
payload is the reported dependency chain, which the full Python message
embeds after "Dependency chain: "); `missingVersion` the missing-version
`ValueError`; `hashFail` the hash-verification `ValueError`;
`unknownSourceType` the unknown-source-type `ValueError`; `execFail` the
`RuntimeError` for a non-zero build command; `gitFail` a `CalledProcessError`
from a git invocation; `missingDependency` the `ValueError` of
`PluginBuilder._build_dependencies` for a name absent from the catalogue;
`noBuildConfig` the `ValueError` of `PluginBuilder._build_plugin`;
`outOfFuel` is the embedding's recursion bound and corresponds to no Python
behaviour. -/
inductive Err where
  | cycle (chain : String)
  | missingVersion (name ver : String)
  | hashFail (filename : String)
  | unknownSourceType (t : String)
  | execFail (code : Int)
  | gitFail (code : Int)
  | missingDependency (name : String)
  | noBuildConfig (platform : String)
  | outOfFuel
deriving DecidableEq, Repr

def errIsCycle : Option Err → Bool
  | some (Err.cycle _) => true
  | _ => false

/-- One external process invocation, recorded in order. -/
inductive RunEvent where
  | shell (cmd cwd : String)
  | git (args : List String) (cwd : Option String)
deriving DecidableEq, Repr

/-- The session state threaded through the traversal: the shared in-progress
set `building_deps` (insertion-ordered, duplicate-free by construction), the
ordered log of external process invocations, and `depsTrace`, a ghost
instrumentation recording every value `building_deps` takes after each
mutation (used only to state the at-most-once invariant; it influences nothing). -/
structure BState where
  buildingDeps : List String
  runLog : List RunEvent
  depsTrace : List (List String)
deriving DecidableEq, Repr

/-- The fields of a `DependencyBuilder` instance (`building_deps` lives in
`BState` because it is shared across builders). -/
structure DependencyBuilder where
  workdir : String
  prefixdir : Option String
  platform : String
  nproc : Nat
  parentConfigEnv : Option GlobalEnvRules
  env : List (String × String)
deriving DecidableEq, Repr

/-- Python `os.path.join(a, b)` for the shapes the code produces. -/
def pathJoin (a b : String) : String :=
  if b.startsWith "/" then b
  else if a = "" then b
  else if a.endsWith "/" then a ++ b
  else a ++ "/" ++ b

/-- The de-duplication of pkg-config paths in `get_default_env` (utils.py
lines 119-126): drop empty entries and keep the first occurrence of each. -/
def dedupKeepOrder (paths : List String) : List String :=
  paths.foldl (fun acc p => if p = "" || acc.contains p then acc else acc ++ [p]) []

/-- `EnvironmentManager.get_default_env` (utils.py lines 67-145). -/
def getDefaultEnv (ext : ExtWorld) (platform workdir : String) (prefixdir : Option String) :
    List (String × String) :=
  let env : List (String × String) := [("WORKDIR", workdir)]
  let env :=
    match prefixdir with
    | some p => dictSet env "PREFIXDIR" p
    | none =>
      if platform.startsWith "linux" then
        match dictGet ext.osEnviron "SYSROOT" with
        | some s => dictSet env "PREFIXDIR" (s ++ "/usr/local")
        | none => dictSet env "PREFIXDIR" "/usr/local"
      else if platform.startsWith "darwin-x86_64" then dictSet env "PREFIXDIR" "/usr/local"
      else if platform.startsWith "darwin-aarch64" then dictSet env "PREFIXDIR" "/opt/homebrew"
      else env
  let env :=
    match dictGet ext.osEnviron "SYSROOT" with
    | some s => dictSet env "SYSROOT" s
    | none => env
  let pkgPaths :=
    match dictGet env "PREFIXDIR" with
    | some prefixPath =>
      if prefixPath ≠ "" then
        ["lib/pkgconfig", "lib64/pkgconfig", "share/pkgconfig", "libdata/pkgconfig"].map
          (fun sub => pathJoin prefixPath sub)
      else []
    | none => []
  let pkgPaths := pkgPaths ++
    (match dictGet env "SYSROOT" with
     | some sysrootPath =>
       if sysrootPath ≠ "" then
         ["usr/lib/pkgconfig", "usr/lib64/pkgconfig", "usr/share/pkgconfig",
          "usr/libdata/pkgconfig"].map (fun sub => pathJoin sysrootPath sub)
       else []
     | none => [])
  let pkgPaths := pkgPaths ++
    (match dictGet ext.osEnviron "PKG_CONFIG_PATH" with
     | some p => if p ≠ "" then [p] else []
     | none => [])
  let ordered := dedupKeepOrder pkgPaths
  let env := if ordered ≠ [] then dictSet env "PKG_CONFIG_PATH" (String.intercalate ":" ordered) else env
  let env :=
    match ext.mesonCrossFile platform with
    | some f => dictSet env "MESON_CROSS_FILE" f
    | none => env
  let env :=
    match ext.cmakeToolchainFile platform with
    | some f => dictSet env "CMAKE_TOOLCHAIN_FILE" f
    | none => env
  match ext.toolchainTriplet platform with
  | some t => dictSet env "TARGET_TRIPLET" t
  | none => env

/-- The `DependencyBuilder.__init__` environment setup (build.py lines
31-67): default environment, `NPROC`, then the parent plugin's merged global
environment when a parent config carries an `env:` section. -/
def mkDependencyBuilder (ext : ExtWorld) (workdir : String) (prefixdir : Option String)
    (platform : String) (nproc : Nat) (parentConfigEnv : Option GlobalEnvRules) :
    DependencyBuilder :=
  let env := getDefaultEnv ext platform workdir prefixdir
  let env := dictSet env "NPROC" (toString nproc)
  let env :=
    match parentConfigEnv with
    | some rules => dictUpdate env (mergeGlobalEnv rules platform)
    | none => env
  { workdir := workdir, prefixdir := prefixdir, platform := platform,
    nproc := nproc, parentConfigEnv := parentConfigEnv, env := env }

/-! ### DependencyBuilder._execute_build (build.py lines 219-284) -/

/-- The per-step build environment: a fresh copy of `os.environ`, overlaid
with the builder's own environment (each value substituted against that same
environment), then the build config's `env:` fragment accumulated under the
additive policy. -/
def computeBuildEnv (ext : ExtWorld) (b : DependencyBuilder) (bc : BuildConfig) :
    List (String × String) :=
  let buildEnv := ext.osEnviron
  let buildEnv := b.env.foldl
    (fun acc kv => dictSet acc kv.1 (substituteVars kv.2 b.env)) buildEnv
  mergeBuildConfigEnv buildEnv bc.env b.env

/-- The command loop of `_execute_build`: the working directory declared by a
dict entry is sticky (kept, unsubstituted, until the next override); command
and working directory are substituted against the builder's environment; a
non-zero exit aborts the remaining commands. -/
def runCommands (ext : ExtWorld) (b : DependencyBuilder) (buildEnv : List (String × String)) :
    List CmdEntry → String → BState → BState × Option Err
  | [], _, st => (st, none)
  | entry :: rest, currentCwd, st =>
    let step : String × String :=
      match entry with
      | CmdEntry.plain c => (currentCwd, c)
      | CmdEntry.withCwd cw c => (cw.getD currentCwd, c)
    let cmd := substituteVars step.2 b.env
    let cwd := substituteVars step.1 b.env
    let st := { st with runLog := st.runLog ++ [RunEvent.shell cmd cwd] }
    let code := ext.runShell cmd cwd buildEnv
    if code ≠ 0 then (st, some (Err.execFail code))
    else runCommands ext b buildEnv rest step.1 st

/-- `DependencyBuilder._execute_build`.  The returned builder is the
method's `self` after the call. -/
def executeBuild (ext : ExtWorld) (b : DependencyBuilder) (bc : BuildConfig) (st : BState) :
    DependencyBuilder × BState × Option Err :=
  let buildEnv := computeBuildEnv ext b bc
  let r := runCommands ext b buildEnv bc.commands b.workdir st
  (b, r.1, r.2)

/-! ### Source acquisition (build.py lines 163-200) -/

/-- The source-acquisition phase of `build_dependency`: tarball download (only
if absent) + optional hash verification + `DL_FILE_NAME` recording, or git
clone (only if the directory is absent) + optional tag checkout, or a hard
error for an unknown source type. -/
def acquireSource (ext : ExtWorld) (b : DependencyBuilder) (depName : String)
    (vc : VersionConfig) (st : BState) : DependencyBuilder × BState × Option Err :=
  if vc.type = "tarball" then
    let filename := (vc.source.splitOn "/").getLastD ""
    let destPath := b.workdir ++ "/" ++ filename
    match vc.hash with
    | some h =>
      if ext.verifyHash destPath h then
        ({ b with env := dictSet b.env "DL_FILE_NAME" filename }, st, none)
      else (b, st, some (Err.hashFail filename))
    | none => ({ b with env := dictSet b.env "DL_FILE_NAME" filename }, st, none)
  else if vc.type = "git" then
    let repoDir := b.workdir ++ "/" ++ depName
    if ext.fileExists repoDir then (b, st, none)
    else
      let args := ["git", "clone", vc.source, repoDir]
      let st := { st with runLog := st.runLog ++ [RunEvent.git args none] }
      let code := ext.runGit args none
      if code ≠ 0 then (b, st, some (Err.gitFail code))
      else
        match vc.tag with
        | some tag =>
          let args2 := ["git", "checkout", tag]
          let st := { st with runLog := st.runLog ++ [RunEvent.git args2 (some repoDir)] }
          let code2 := ext.runGit args2 (some repoDir)
          if code2 ≠ 0 then (b, st, some (Err.gitFail code2)) else (b, st, none)
        | none => (b, st, none)
  else (b, st, some (Err.unknownSourceType vc.type))

/-! ### The recursive dependency build (build.py lines 69-217) -/

/-- The loop body of `_build_sub_dependencies` (build.py lines 97-120): for
each `(name, version)` reference, a name absent from the catalogue is
skipped with a warning; otherwise a fresh sub-builder is created (workdir
extended by the name, same prefix/platform/nproc/parent config) and the
recursive build — passed in as `build` — is run; its exception aborts the
remaining iterations. -/
def goSubDeps (cat : Catalogue) (mkSub : String → DependencyBuilder)
    (build : DependencyBuilder → String → String → DepConfig → BState →
      DependencyBuilder × BState × Option Err) :
    List (String × String) → BState → BState × Option Err
  | [], st => (st, none)
  | (n, v) :: rest, st =>
    match dictGet cat n with
    | none => goSubDeps cat mkSub build rest st
    | some cfg =>
      let r := build (mkSub n) n v cfg st
      match r.2.2 with
      | some err => (r.2.1, some err)
      | none => goSubDeps cat mkSub build rest r.2.1

/-- The fresh builder created for a sub-dependency (build.py lines 107-114):
workdir extended by the sub-dependency's name, same prefix, platform, job
count and parent config, and the shared in-progress set. -/
def mkSubBuilder (ext : ExtWorld) (b : DependencyBuilder) (n : String) : DependencyBuilder :=
  mkDependencyBuilder ext (b.workdir ++ "/" ++ n) b.prefixdir b.platform b.nproc b.parentConfigEnv

/-- `DependencyBuilder._build_sub_dependencies`: resolve this node's nested
dependency rule set for the platform and build each listed sub-dependency. -/
def buildSubDependencies (ext : ExtWorld) (cat : Catalogue)
    (build : DependencyBuilder → String → String → DepConfig → BState →
      DependencyBuilder × BState × Option Err)
    (b : DependencyBuilder) (vc : VersionConfig) (st : BState) : BState × Option Err :=
  let subList := getDependencies vc.dependencies b.platform
  goSubDeps cat (mkSubBuilder ext b) build subList st

/-- The `try` suite of `build_dependency` (build.py lines 154-213), run with
the key already added: version lookup, sub-dependency recursion, source
acquisition, build-rule resolution, build execution, in that order.  The
recursive `build_dependency` call is passed in as `build`. -/
def buildDependencyBody (ext : ExtWorld) (cat : Catalogue)
    (build : DependencyBuilder → String → String → DepConfig → BState →
      DependencyBuilder × BState × Option Err)
    (b : DependencyBuilder) (depName depVer : String) (depCfg : DepConfig) (st1 : BState) :
    DependencyBuilder × BState × Option Err :=
  match dictGet depCfg.versions depVer with
  | none => (b, st1, some (Err.missingVersion depName depVer))
  | some vc =>
    let sub := buildSubDependencies ext cat build b vc st1
    match sub.2 with
    | some err => (b, sub.1, some err)
    | none =>
      let acq := acquireSource ext b depName vc sub.1
      match acq.2.2 with
      | some err => (acq.1, acq.2.1, some err)
      | none =>
        match getBuildConfig vc.build b.platform with
        | none => (acq.1, acq.2.1, none)
        | some bc => executeBuild ext acq.1 bc acq.2.1

/-- The `finally` block of `build_dependency` (build.py lines 215-217):
discard the key from the in-progress set, whatever the body's outcome was
(the resulting set value is also recorded in the ghost trace). -/
def applyFinally (depKey : String) (r : DependencyBuilder × BState × Option Err) :
    DependencyBuilder × BState × Option Err :=
  let deps2 := r.2.1.buildingDeps.erase depKey
  (r.1, { r.2.1 with buildingDeps := deps2, depsTrace := r.2.1.depsTrace ++ [deps2] }, r.2.2)

/-- `DependencyBuilder.build_dependency` (build.py lines 122-217).  The
in-progress check raises before anything else; on the non-cycle path the key
is added, the `try` body runs, and the `finally` discard of the key is
applied to the body's outcome on every exit path.  `fuel` bounds the
recursion depth (one unit per nested `build_dependency` call). -/
def buildDependency (ext : ExtWorld) (cat : Catalogue) :
    Nat → DependencyBuilder → String → String → DepConfig → BState →
      DependencyBuilder × BState × Option Err
  | 0, b, _, _, _, st => (b, st, some Err.outOfFuel)
  | fuel + 1, b, depName, depVer, depCfg, st =>
    let depKey := depName ++ "@" ++ depVer
    if depKey ∈ st.buildingDeps then
      (b, st, some (Err.cycle (String.intercalate " -> "
        (ext.setIterOrder st.buildingDeps) ++ " -> " ++ depKey)))
    else
      let deps1 := st.buildingDeps ++ [depKey]
      let st1 := { st with buildingDeps := deps1, depsTrace := st.depsTrace ++ [deps1] }
      applyFinally depKey
        (buildDependencyBody ext cat
          (fun b' n v cfg st' => buildDependency ext cat fuel b' n v cfg st')
          b depName depVer depCfg st1)

/-! ### PluginBuilder (build.py lines 287-511), the parts the claims touch -/

/-- The loop of `PluginBuilder._build_dependencies` (build.py lines
419-430): one shared `DependencyBuilder` is threaded through all top-level
dependencies; a name absent from the catalogue raises immediately. -/
def goPluginDeps (ext : ExtWorld) (cat : Catalogue) (fuel : Nat) :
    List (String × String) → DependencyBuilder → BState → BState × Option Err
  | [], _, st => (st, none)
  | (n, v) :: rest, db, st =>
    match dictGet cat n with
    | none => (st, some (Err.missingDependency n))
    | some cfg =>
      let r := buildDependency ext cat fuel db n v cfg st
      match r.2.2 with
      | some err => (r.2.1, some err)
      | none => goPluginDeps ext cat fuel rest r.1 r.2.1

/-- `PluginBuilder._build_dependencies` (build.py lines 384-430): resolve the
release's dependency list for the platform, construct one dependency builder
with the plugin's config as parent, and build each listed dependency. -/
def pluginBuildDependencies (ext : ExtWorld) (cat : Catalogue) (fuel : Nat)
    (workdir : String) (prefixdir : Option String) (platform : String) (nproc : Nat)
    (configEnv : Option GlobalEnvRules) (release : ReleaseConfig) (st : BState) :
    BState × Option Err :=
  let depList := getDependencies release.dependencies platform
  if depList = [] then (st, none)
  else
    let db := mkDependencyBuilder ext workdir prefixdir platform nproc configEnv
    goPluginDeps ext cat fuel depList db st

/-- `PluginBuilder._build_plugin` (build.py lines 472-485): resolving no
build configuration for the platform is a hard error at the top level;
otherwise the release's build step is executed through a throwaway
`DependencyBuilder` whose environment is replaced by the plugin's own. -/
def pluginBuildPlugin (ext : ExtWorld) (workdir : String) (prefixdir : Option String)
    (platform : String) (nproc : Nat) (env : List (String × String))
    (release : ReleaseConfig) (st : BState) : BState × Option Err :=
  match getBuildConfig release.build platform with
  | none => (st, some (Err.noBuildConfig platform))
  | some bc =>
    let db := mkDependencyBuilder ext workdir prefixdir platform nproc none
    let db := { db with env := env }
    let r := executeBuild ext db bc st
    (r.2.1, r.2.2)

/-! ### Invariant predicates -/

/-- The in-progress-set invariant: the current set holds each key at most
once, and so did every value it took so far (recorded in the ghost trace). -/
def stateOk (st : BState) : Prop :=
  st.buildingDeps.Nodup ∧ ∀ l ∈ st.depsTrace, l.Nodup

instance (st : BState) : Decidable (stateOk st) := by
  unfold stateOk; infer_instance

/-- No `(name, version)` key repeats along any root-to-node path of the
dependency tree unfolded from the catalogue (relative to the keys `anc`
already on the active path).  The recursion mirrors `build_dependency`
exactly: only sub-dependencies listed for the platform, present in the
catalogue, and reachable through an existing version entry are visited. -/
def noRepeats (cat : Catalogue) : Nat → String → List String → String → String → DepConfig → Bool
  | 0, _, _, _, _, _ => true
  | fuel + 1, platform, anc, name, ver, cfg =>
    let key := name ++ "@" ++ ver
    decide (key ∉ anc) &&
    (match dictGet cfg.versions ver with
     | none => true
     | some vc =>
       (getDependencies vc.dependencies platform).all fun nv =>
         match dictGet cat nv.1 with
         | none => true
         | some cfg' => noRepeats cat fuel platform (anc ++ [key]) nv.1 nv.2 cfg')

/-! ### Concrete fixtures used by the claim instances and witnesses -/

/-- A benign external world: every file exists, every hash verifies, every
command exits 0, no toolchain files. -/
def extFx : ExtWorld :=
  { osEnviron := [], fileExists := fun _ => true, verifyHash := fun _ _ => true,
    runShell := fun _ _ _ => 0, runGit := fun _ _ => 0,
    mesonCrossFile := fun _ => none, cmakeToolchainFile := fun _ => none,
    toolchainTriplet := fun _ => none, setIterOrder := fun l => l }

def bFx : DependencyBuilder := mkDependencyBuilder extFx "/w" none "linux-x86_64-musl" 1 none

/-- A dependency that declares itself as its own sub-dependency. -/
def vcSelfDep : VersionConfig :=
  { type := "tarball", source := "http://x/a.tar.gz", hash := none, tag := none,
    dependencies := [(".*", [("a", "1")])], build := [] }

def cfgSelfDep : DepConfig := { versions := [("1", vcSelfDep)] }

def catSelfDep : Catalogue := [("a", cfgSelfDep)]

/-- A diamond: r depends on b and c, both of which depend on d. -/
def vcDiamondLeaf : VersionConfig :=
  { type := "tarball", source := "http://x/d.tar.gz", hash := none, tag := none,
    dependencies := [],
    build := [(".*", { env := [], commands := [CmdEntry.plain "make"] })] }

def vcDiamondB : VersionConfig :=
  { type := "tarball", source := "http://x/b.tar.gz", hash := none, tag := none,
    dependencies := [(".*", [("d", "1")])], build := [] }

def vcDiamondC : VersionConfig :=
  { type := "tarball", source := "http://x/c.tar.gz", hash := none, tag := none,
    dependencies := [(".*", [("d", "1")])], build := [] }

def vcDiamondRoot : VersionConfig :=
  { type := "tarball", source := "http://x/r.tar.gz", hash := none, tag := none,
    dependencies := [(".*", [("b", "1"), ("c", "1")])], build := [] }

def cfgDiamondRoot : DepConfig := { versions := [("1", vcDiamondRoot)] }

def catDiamond : Catalogue :=
  [("b", { versions := [("1", vcDiamondB)] }), ("c", { versions := [("1", vcDiamondC)] }),
   ("d", { versions := [("1", vcDiamondLeaf)] }), ("r", cfgDiamondRoot)]

/-- A dependency whose sub-dependency list references a name ("ghost")
absent from the catalogue. -/
def vcGhostParent : VersionConfig :=
  { type := "tarball", source := "http://x/a.tar.gz", hash := none, tag := none,
    dependencies := [(".*", [("ghost", "1")])], build := [] }

def cfgGhostParent : DepConfig := { versions := [("1", vcGhostParent)] }

def catGhost : Catalogue := [("a", cfgGhostParent)]

/-- A dependency with no sub-dependencies and no build rule for any
platform (its build step is skipped). -/
def vcSkip : VersionConfig :=
  { type := "tarball", source := "http://x/s.tgz", hash := none, tag := none,
    dependencies := [], build := [("darwin-.*", { env := [], commands := [] })] }

def cfgSkip : DepConfig := { versions := [("1", vcSkip)] }

/-- A release whose build rule set matches no linux platform. -/
def relNoBuild : ReleaseConfig :=
  { version := "1.0", dependencies := [],
    build := [("darwin-.*", { env := [], commands := [] })] }

/-- An indirect cycle: b@2 depends on a@1, which depends on b@2. -/
def vcIndirectB : VersionConfig :=
  { type := "tarball", source := "http://x/b.tar.gz", hash := none, tag := none,
    dependencies := [(".*", [("a", "1")])], build := [] }

def vcIndirectA : VersionConfig :=
  { type := "tarball", source := "http://x/a.tar.gz", hash := none, tag := none,
    dependencies := [(".*", [("b", "2")])], build := [] }

def cfgIndirectB : DepConfig := { versions := [("2", vcIndirectB)] }

def cfgIndirectA : DepConfig := { versions := [("1", vcIndirectA)] }

def catIndirect : Catalogue := [("a", cfgIndirectA), ("b", cfgIndirectB)]

/-- The benign world with the other admissible iteration order for a
two-element set: the reverse of insertion order (with randomized string
hashing, a CPython run produces either enumeration of a two-element set). -/
def extRev : ExtWorld := { extFx with setIterOrder := fun l => l.reverse }

def bRev : DependencyBuilder := mkDependencyBuilder extRev "/w" none "linux-x86_64-musl" 1 none

/-! ### Theorems -/

theorem dictGet_dictSet {α : Type} (l : List (String × α)) (k k' : String) (v : α) :
    dictGet (dictSet l k v) k' = if k = k' then some v else dictGet l k' := by
  induction l with
  | nil => by_cases h : k = k' <;> simp [dictSet, dictGet, h]
  | cons p rest ih =>
    by_cases h1 : p.1 = k
    · by_cases h2 : k = k' <;> simp [dictSet, dictGet, h1, h2]
    · by_cases h2 : p.1 = k'
      · have h3 : ¬k = k' := fun e => h1 (by rw [h2, e])
        have h4 : ¬k' = k := fun e => h3 e.symm
        simp [dictSet, dictGet, h1, h2, h3, h4]
      · simp [dictSet, dictGet, h1, h2, ih]

theorem dictGet_dictSet_self {α : Type} (l : List (String × α)) (k : String) (v : α) :
    dictGet (dictSet l k v) k = some v := by
  simp [dictGet_dictSet]

theorem dictGet_dictSet_ne {α : Type} (l : List (String × α)) (k k' : String) (v : α)
    (h : k ≠ k') : dictGet (dictSet l k v) k' = dictGet l k' := by
  simp [dictGet_dictSet, h]

theorem optOr_assoc {α : Type} (a b c : Option α) :
    optOr (optOr a b) c = optOr a (optOr b c) := by
  cases a <;> cases b <;> simp [optOr]

theorem optOr_none_right {α : Type} (a : Option α) : optOr a none = a := by
  cases a <;> simp [optOr]

theorem dictGet_foldl_dictSet (frag : List (String × String))
    (m : List (String × String)) (k : String) :
    dictGet (frag.foldl (fun m kv => dictSet m kv.1 kv.2) m) k =
      optOr (findLastBinding frag k) (dictGet m k) := by
  induction frag generalizing m with
  | nil => simp [findLastBinding, optOr]
  | cons kv rest ih =>
    simp only [List.foldl_cons, findLastBinding, ih, dictGet_dictSet]
    by_cases h : kv.1 = k
    · cases hr : findLastBinding rest k <;> simp [optOr, h]
    · cases hr : findLastBinding rest k <;> simp [optOr, h]

theorem mergeGlobalEnv_foldl_chars (configEnv : GlobalEnvRules) (platform k : String)
    (acc : List (String × String)) :
    dictGet (configEnv.foldl
      (fun merged pr =>
        if platformMatch pr.1 platform then
          pr.2.foldl (fun m kv => dictSet m kv.1 kv.2) merged
        else merged) acc) k =
    optOr (lastMatchValue configEnv platform k) (dictGet acc k) := by
  induction configEnv generalizing acc with
  | nil => simp [lastMatchValue, optOr]
  | cons pr rest ih =>
    simp only [List.foldl_cons, lastMatchValue]
    by_cases h : platformMatch pr.1 platform
    · simp only [h, if_pos, ih, dictGet_foldl_dictSet, if_true, optOr_assoc]
    · simp [h, ih, optOr_none_right]

theorem erase_append_singleton (l : List String) (k : String) (h : k ∉ l) :
    (l ++ [k]).erase k = l := by
  rw [List.erase_append_right _ h]
  simp

theorem nodup_append_singleton (l : List String) (k : String)
    (hl : l.Nodup) (h : k ∉ l) : (l ++ [k]).Nodup := by
  simp [List.nodup_append, hl, h]

/-! ### Frame lemmas: what each phase leaves untouched -/

theorem runCommands_frame (ext : ExtWorld) (b : DependencyBuilder)
    (buildEnv : List (String × String)) (cmds : List CmdEntry) (cwd : String) (st : BState) :
    ((runCommands ext b buildEnv cmds cwd st).1.buildingDeps = st.buildingDeps ∧
      (runCommands ext b buildEnv cmds cwd st).1.depsTrace = st.depsTrace) ∧
    errIsCycle (runCommands ext b buildEnv cmds cwd st).2 = false := by
  induction cmds generalizing cwd st with
  | nil => simp [runCommands, errIsCycle]
  | cons entry rest ih =>
    simp only [runCommands]
    split
    · simp [errIsCycle]
    · exact ih _ _

theorem executeBuild_frame (ext : ExtWorld) (b : DependencyBuilder)
    (bc : BuildConfig) (st : BState) :
    (executeBuild ext b bc st).1 = b ∧
    ((executeBuild ext b bc st).2.1.buildingDeps = st.buildingDeps ∧
      (executeBuild ext b bc st).2.1.depsTrace = st.depsTrace) ∧
    errIsCycle (executeBuild ext b bc st).2.2 = false := by
  refine ⟨rfl, ?_, ?_⟩
  · exact (runCommands_frame ext b (computeBuildEnv ext b bc) bc.commands b.workdir st).1
  · exact (runCommands_frame ext b (computeBuildEnv ext b bc) bc.commands b.workdir st).2

theorem acquireSource_frame (ext : ExtWorld) (b : DependencyBuilder) (depName : String)
    (vc : VersionConfig) (st : BState) :
    ((acquireSource ext b depName vc st).2.1.buildingDeps = st.buildingDeps ∧
      (acquireSource ext b depName vc st).2.1.depsTrace = st.depsTrace) ∧
    errIsCycle (acquireSource ext b depName vc st).2.2 = false := by
  obtain ⟨ty, src, hash, tag, deps, bld⟩ := vc
  unfold acquireSource
  cases hash <;> cases tag <;> dsimp only <;> split_ifs <;> simp [errIsCycle]

/-- The sub-dependency loop preserves the in-progress set and the invariant
whenever each recursive build does. -/
theorem goSubDeps_state (cat : Catalogue) (mkSub : String → DependencyBuilder)
    (build : DependencyBuilder → String → String → DepConfig → BState →
      DependencyBuilder × BState × Option Err)
    (hb : ∀ b' n v cfg st', ((build b' n v cfg st').2.1).buildingDeps = st'.buildingDeps ∧
      (stateOk st' → stateOk ((build b' n v cfg st').2.1))) :
    ∀ (l : List (String × String)) (st : BState),
      ((goSubDeps cat mkSub build l st).1).buildingDeps = st.buildingDeps ∧
      (stateOk st → stateOk (goSubDeps cat mkSub build l st).1) := by
  intro l
  induction l with
  | nil => intro st; simp [goSubDeps]
  | cons nv rest ih =>
    intro st
    obtain ⟨n, v⟩ := nv
    simp only [goSubDeps]
    cases hcat : dictGet cat n with
    | none => exact ih st
    | some cfg =>
      cases herr : (build (mkSub n) n v cfg st).2.2 with
      | some err =>
        simp only [herr]
        exact ⟨(hb (mkSub n) n v cfg st).1, (hb (mkSub n) n v cfg st).2⟩
      | none =>
        simp only [herr]
        constructor
        · rw [(ih _).1, (hb (mkSub n) n v cfg st).1]
        · intro hok
          exact (ih _).2 ((hb (mkSub n) n v cfg st).2 hok)

/-- The `finally` discard undoes the `enter` append and keeps the invariant. -/
theorem applyFinally_state (depKey : String) (r : DependencyBuilder × BState × Option Err)
    (base : List String) (hmem : depKey ∉ base)
    (hdeps : r.2.1.buildingDeps = base ++ [depKey]) :
    (applyFinally depKey r).2.1.buildingDeps = base ∧
    (base.Nodup → stateOk r.2.1 → stateOk (applyFinally depKey r).2.1) ∧
    (applyFinally depKey r).2.2 = r.2.2 := by
  have herase : r.2.1.buildingDeps.erase depKey = base := by
    rw [hdeps, erase_append_singleton _ _ hmem]
  refine ⟨herase, ?_, rfl⟩
  intro hnodup hok
  refine ⟨by simpa [applyFinally] using herase.symm ▸ hnodup, ?_⟩
  intro l hl
  simp only [applyFinally] at hl
  rcases List.mem_append.mp hl with h | h
  · exact hok.2 l h
  · rcases List.mem_singleton.mp h with rfl
    rw [herase]; exact hnodup

/-- The `try` body preserves the in-progress set and the invariant whenever
each recursive build does. -/
theorem buildDependencyBody_state (ext : ExtWorld) (cat : Catalogue)
    (build : DependencyBuilder → String → String → DepConfig → BState →
      DependencyBuilder × BState × Option Err)
    (hb : ∀ b' n v cfg st', ((build b' n v cfg st').2.1).buildingDeps = st'.buildingDeps ∧
      (stateOk st' → stateOk ((build b' n v cfg st').2.1)))
    (b : DependencyBuilder) (depName depVer : String) (depCfg : DepConfig) (st1 : BState) :
    ((buildDependencyBody ext cat build b depName depVer depCfg st1).2.1).buildingDeps
        = st1.buildingDeps ∧
    (stateOk st1 →
      stateOk ((buildDependencyBody ext cat build b depName depVer depCfg st1).2.1)) := by
  simp only [buildDependencyBody]
  cases hver : dictGet depCfg.versions depVer with
  | none => exact ⟨rfl, fun h => h⟩
  | some vc =>
    simp only []
    have hsub := goSubDeps_state cat (mkSubBuilder ext b) build hb
      (getDependencies vc.dependencies b.platform) st1
    cases hsuberr : (buildSubDependencies ext cat build b vc st1).2 with
    | some err =>
      simp only [hsuberr]
      constructor
      · simpa [buildSubDependencies] using hsub.1
      · simpa [buildSubDependencies] using hsub.2
    | none =>
      simp only [hsuberr]
      have hsub1 : (buildSubDependencies ext cat build b vc st1).1.buildingDeps
          = st1.buildingDeps := by
        simpa [buildSubDependencies] using hsub.1
      have hsub2 : stateOk st1 → stateOk (buildSubDependencies ext cat build b vc st1).1 := by
        simpa [buildSubDependencies] using hsub.2
      have hacq := acquireSource_frame ext b depName vc (buildSubDependencies ext cat build b vc st1).1
      have hacqOk : stateOk st1 →
          stateOk (acquireSource ext b depName vc (buildSubDependencies ext cat build b vc st1).1).2.1 := by
        intro h
        obtain ⟨a1, a2⟩ := hsub2 h
        exact ⟨by rw [hacq.1.1]; exact a1, by rw [hacq.1.2]; exact a2⟩
      have hacqDeps : (acquireSource ext b depName vc (buildSubDependencies ext cat build b vc st1).1).2.1.buildingDeps
          = st1.buildingDeps := by
        rw [hacq.1.1, hsub1]
      cases hacqerr : (acquireSource ext b depName vc (buildSubDependencies ext cat build b vc st1).1).2.2 with
      | some err => simpa [hacqerr] using ⟨hacqDeps, hacqOk⟩
      | none =>
        simp only [hacqerr]
        cases hbc : getBuildConfig vc.build b.platform with
        | none => exact ⟨hacqDeps, hacqOk⟩
        | some bc =>
          have hex := executeBuild_frame ext
            (acquireSource ext b depName vc (buildSubDependencies ext cat build b vc st1).1).1 bc
            (acquireSource ext b depName vc (buildSubDependencies ext cat build b vc st1).1).2.1
          constructor
          · rw [hex.2.1.1, hacqDeps]
          · intro h
            obtain ⟨a1, a2⟩ := hacqOk h
            exact ⟨by rw [hex.2.1.1]; exact a1, by rw [hex.2.1.2]; exact a2⟩

/-- `build_dependency` restores the in-progress set on every exit path
(cycle check, missing version, sub-dependency failure, hash/git/source
failure, skipped build, command failure, and success alike), and preserves
the at-most-once invariant of the set across every value the set takes. -/
theorem buildDependency_state (ext : ExtWorld) (cat : Catalogue) :
    ∀ (fuel : Nat) (b : DependencyBuilder) (n v : String) (cfg : DepConfig) (st : BState),
      ((buildDependency ext cat fuel b n v cfg st).2.1).buildingDeps = st.buildingDeps ∧
      (stateOk st → stateOk ((buildDependency ext cat fuel b n v cfg st).2.1)) := by
  intro fuel
  induction fuel with
  | zero => intro b n v cfg st; simp [buildDependency]
  | succ fuel ih =>
    intro b n v cfg st
    simp only [buildDependency]
    by_cases hmem : (n ++ "@" ++ v) ∈ st.buildingDeps
    · simp [hmem]
    · simp only [hmem, ite_false, if_false]
      have hst1ok : stateOk st → stateOk ({ st with buildingDeps := st.buildingDeps ++ [n ++ "@" ++ v], depsTrace := st.depsTrace ++ [st.buildingDeps ++ [n ++ "@" ++ v]] } : BState) := by
        intro ⟨h1, h2⟩
        refine ⟨nodup_append_singleton _ _ h1 hmem, ?_⟩
        intro l hl
        rcases List.mem_append.mp hl with h | h
        · exact h2 l h
        · rcases List.mem_singleton.mp h with rfl
          exact nodup_append_singleton _ _ h1 hmem
      have hbody := buildDependencyBody_state ext cat
        (fun b' n' v' cfg' st' => buildDependency ext cat fuel b' n' v' cfg' st')
        (fun b' n' v' cfg' st' => ih b' n' v' cfg' st') b n v cfg
        ({ st with buildingDeps := st.buildingDeps ++ [n ++ "@" ++ v], depsTrace := st.depsTrace ++ [st.buildingDeps ++ [n ++ "@" ++ v]] } : BState)
      have hfin := applyFinally_state (n ++ "@" ++ v)
        (buildDependencyBody ext cat
          (fun b' n' v' cfg' st' => buildDependency ext cat fuel b' n' v' cfg' st')
          b n v cfg
          ({ st with buildingDeps := st.buildingDeps ++ [n ++ "@" ++ v], depsTrace := st.depsTrace ++ [st.buildingDeps ++ [n ++ "@" ++ v]] } : BState))
        st.buildingDeps hmem (by rw [hbody.1])
      refine ⟨hfin.1, ?_⟩
      intro hok
      exact hfin.2.1 hok.1 (hbody.2 (hst1ok hok))

theorem applyFinally_err (depKey : String) (r : DependencyBuilder × BState × Option Err) :
    (applyFinally depKey r).2.2 = r.2.2 := rfl

theorem mkSubBuilder_platform (ext : ExtWorld) (b : DependencyBuilder) (n : String) :
    (mkSubBuilder ext b n).platform = b.platform := rfl

/-- The sub-dependency loop cannot produce a cycle error when no recursive
build started from the loop's base set can. -/
theorem goSubDeps_noCycle (cat : Catalogue) (mkSub : String → DependencyBuilder)
    (build : DependencyBuilder → String → String → DepConfig → BState →
      DependencyBuilder × BState × Option Err)
    (hb : ∀ b' n v cfg st', ((build b' n v cfg st').2.1).buildingDeps = st'.buildingDeps)
    (A : List String) :
    ∀ (l : List (String × String)),
      (∀ n v cfg st', (n, v) ∈ l → dictGet cat n = some cfg →
        st'.buildingDeps = A → errIsCycle (build (mkSub n) n v cfg st').2.2 = false) →
      ∀ st, st.buildingDeps = A → errIsCycle (goSubDeps cat mkSub build l st).2 = false := by
  intro l
  induction l with
  | nil => intro hnc st hA; simp [goSubDeps, errIsCycle]
  | cons nv rest ih =>
    intro hnc st hA
    obtain ⟨n, v⟩ := nv
    simp only [goSubDeps]
    cases hcat : dictGet cat n with
    | none =>
      exact ih (fun n' v' cfg' st' hm => hnc n' v' cfg' st' (List.mem_cons_of_mem _ hm)) st hA
    | some cfg =>
      cases herr : (build (mkSub n) n v cfg st).2.2 with
      | some err =>
        simp only [herr]
        have h := hnc n v cfg st (List.mem_cons_self _ _) hcat hA
        rw [herr] at h
        simpa [errIsCycle] using h
      | none =>
        simp only [herr]
        refine ih (fun n' v' cfg' st' hm => hnc n' v' cfg' st' (List.mem_cons_of_mem _ hm)) _ ?_
        rw [hb (mkSub n) n v cfg st]
        exact hA

/-- The `try` body of `build_dependency` produces a cycle error only through
one of its recursive sub-builds. -/
theorem buildDependencyBody_noCycle (ext : ExtWorld) (cat : Catalogue)
    (build : DependencyBuilder → String → String → DepConfig → BState →
      DependencyBuilder × BState × Option Err)
    (hb : ∀ b' n v cfg st', ((build b' n v cfg st').2.1).buildingDeps = st'.buildingDeps)
    (b : DependencyBuilder) (depName depVer : String) (depCfg : DepConfig) (st1 : BState)
    (hnc : ∀ vc, dictGet depCfg.versions depVer = some vc →
      ∀ n v cfg st', (n, v) ∈ getDependencies vc.dependencies b.platform →
        dictGet cat n = some cfg → st'.buildingDeps = st1.buildingDeps →
        errIsCycle (build (mkSubBuilder ext b n) n v cfg st').2.2 = false) :
    errIsCycle (buildDependencyBody ext cat build b depName depVer depCfg st1).2.2 = false := by
  simp only [buildDependencyBody]
  cases hver : dictGet depCfg.versions depVer with
  | none => simp [errIsCycle]
  | some vc =>
    simp only []
    have hgo := goSubDeps_noCycle cat (mkSubBuilder ext b) build hb st1.buildingDeps
      (getDependencies vc.dependencies b.platform)
      (fun n v cfg st' hm hcat hA => hnc vc hver n v cfg st' hm hcat hA) st1 rfl
    cases hsuberr : (buildSubDependencies ext cat build b vc st1).2 with
    | some err =>
      simp only [hsuberr]
      rw [show (buildSubDependencies ext cat build b vc st1).2
          = (goSubDeps cat (mkSubBuilder ext b) build
              (getDependencies vc.dependencies b.platform) st1).2 from rfl] at hsuberr
      rw [hsuberr] at hgo
      simpa [errIsCycle] using hgo
    | none =>
      simp only [hsuberr]
      have hacq := acquireSource_frame ext b depName vc (buildSubDependencies ext cat build b vc st1).1
      cases hacqerr : (acquireSource ext b depName vc (buildSubDependencies ext cat build b vc st1).1).2.2 with
      | some err =>
        simp only [hacqerr]
        rw [hacqerr] at hacq
        simpa [errIsCycle] using hacq.2
      | none =>
        simp only [hacqerr]
        cases hbc : getBuildConfig vc.build b.platform with
        | none => simp [errIsCycle]
        | some bc =>
          exact (executeBuild_frame ext
            (acquireSource ext b depName vc (buildSubDependencies ext cat build b vc st1).1).1 bc
            (acquireSource ext b depName vc (buildSubDependencies ext cat build b vc st1).1).2.1).2.2

/-- A build of a dependency tree with no repeated key along any
root-to-node path never raises the circular-dependency error (other errors
remain possible; none of them is the cycle error). -/
theorem buildDependency_noCycle (ext : ExtWorld) (cat : Catalogue) :
    ∀ (fuel : Nat) (b : DependencyBuilder) (n v : String) (cfg : DepConfig) (st : BState),
      noRepeats cat fuel b.platform st.buildingDeps n v cfg = true →
      errIsCycle (buildDependency ext cat fuel b n v cfg st).2.2 = false := by
  intro fuel
  induction fuel with
  | zero => intro b n v cfg st _; simp [buildDependency, errIsCycle]
  | succ fuel ih =>
    intro b n v cfg st hnr
    simp only [noRepeats, Bool.and_eq_true] at hnr
    obtain ⟨hmem', hrest⟩ := hnr
    have hmem : (n ++ "@" ++ v) ∉ st.buildingDeps := of_decide_eq_true hmem'
    simp only [buildDependency, hmem, ite_false, if_false]
    rw [applyFinally_err]
    apply buildDependencyBody_noCycle ext cat _
      (fun b' n' v' cfg' st' => (buildDependency_state ext cat fuel b' n' v' cfg' st').1)
    intro vc hver n' v' cfg' st' hmemList hcat hA
    apply ih
    rw [mkSubBuilder_platform, hA]
    rw [hver] at hrest
    have hall := List.all_eq_true.mp hrest ⟨n', v'⟩ hmemList
    rw [hcat] at hall
    exact hall

/-! ### Remaining supporting lemmas -/

theorem runCommands_runLog (ext : ExtWorld) (b : DependencyBuilder)
    (buildEnv : List (String × String)) (cmds : List CmdEntry) (cwd : String) (st : BState) :
    st.runLog <+: (runCommands ext b buildEnv cmds cwd st).1.runLog := by
  induction cmds generalizing cwd st with
  | nil => simp [runCommands]
  | cons entry rest ih =>
    simp only [runCommands]
    split
    · exact List.prefix_append _ _
    · have h2 : ∀ (cwd2 : String) (st2 : BState),
          st.runLog <+: st2.runLog →
          st.runLog <+: (runCommands ext b buildEnv rest cwd2 st2).1.runLog := by
        intro cwd2 st2 hlog
        exact List.IsPrefix.trans hlog (ih cwd2 st2)
      exact h2 _ _ (List.prefix_append _ _)

theorem getBuildConfig_eq_select (rules : List (String × BuildConfig)) (platform : String) :
    getBuildConfig rules platform = selectForPlatform rules platform := by
  induction rules with
  | nil => rfl
  | cons pr rest ih =>
    obtain ⟨pat, bc⟩ := pr
    by_cases h : platformMatch pat platform
    · simp [getBuildConfig, selectForPlatform, List.find?_cons, h]
    · simp only [getBuildConfig, selectForPlatform, List.find?_cons, h]
      simpa [selectForPlatform] using ih

theorem getArtifacts_eq_select (rules : List (String × List String)) (platform : String) :
    getArtifacts rules platform = (selectForPlatform rules platform).getD [] := by
  induction rules with
  | nil => rfl
  | cons pr rest ih =>
    obtain ⟨pat, arts⟩ := pr
    by_cases h : platformMatch pat platform
    · simp [getArtifacts, selectForPlatform, List.find?_cons, h]
    · simp only [getArtifacts, selectForPlatform, List.find?_cons, h]
      simpa [selectForPlatform] using ih

theorem getDependenciesLoop_eq_select (rules : List (String × List (String × String)))
    (platform : String) :
    getDependenciesLoop rules platform = (selectForPlatform rules platform).getD [] := by
  induction rules with
  | nil => rfl
  | cons pr rest ih =>
    obtain ⟨pat, deps⟩ := pr
    by_cases h : platformMatch pat platform
    · simp [getDependenciesLoop, selectForPlatform, List.find?_cons, h]
    · simp only [getDependenciesLoop, selectForPlatform, List.find?_cons, h]
      simpa [selectForPlatform] using ih

theorem getDependencies_eq_select (rules : List (String × List (String × String)))
    (platform : String) :
    getDependencies rules platform = (selectForPlatform rules platform).getD [] := by
  cases rules with
  | nil => rfl
  | cons pr rest => simp [getDependencies, getDependenciesLoop_eq_select]

/-! ### The claims -/

/-- C1 counterexample.  The claim requires the reported message to be the
in-progress keys *in visitation order* (with the repeating key appended).
But build.py line 141 builds the chain with `" -> ".join(self.building_deps)`
over a Python `set`, whose iteration order is implementation-defined (string
hashing is randomized per process), so for two or more in-progress keys the
joined portion is an arbitrary enumeration.  For the indirect cycle
`b@2 -> a@1 -> b@2`, under the admissible iteration order that enumerates
the two-element set `{b@2, a@1}` in reverse insertion order (the
oracle's answer is a permutation of the set's contents, second conjunct),
the program reports the chain `a@1 -> b@2 -> b@2` — not the visitation-order
chain `b@2 -> a@1 -> b@2` the claim requires. -/
theorem claim1_counterexample :
    (buildDependency extRev catIndirect 5 bRev "b" "2" cfgIndirectB ⟨[], [], []⟩).2.2 =
      some (Err.cycle "a@1 -> b@2 -> b@2") ∧
    (extRev.setIterOrder ["b@2", "a@1"]).Perm ["b@2", "a@1"] ∧
    "a@1 -> b@2 -> b@2" ≠ "b@2 -> a@1 -> b@2" := by
  exact ⟨rfl, by decide, by decide⟩

/-- C1 as amended.  When `build_dependency` is invoked for a key that is
already in the session's in-progress set — i.e. when the recursion reaches a
node whose `(name, version)` key repeats along the active root-to-node
path — it raises the circular-dependency error immediately: the returned
state is exactly the input state, so no process-runner invocation is logged
for that node, and the reported chain is the in-progress keys as the set
enumerates them (its implementation-defined iteration order, NOT necessarily
visitation order) followed by the repeating key, `join(set) -> key`, so the
repeating key is appended with one occurrence at the very end.  This holds
for every iteration order the set may exhibit.  The second conjunct runs the
whole scenario of a dependency `a@1` declaring itself as its own
sub-dependency from an empty session: the build raises the cycle error with
chain `a@1 -> a@1` and the process runner is never invoked (a one-element
set has only one enumeration, so this chain is exact). -/
theorem claim1_cycle_detected_before_runner :
    (∀ (ext : ExtWorld) (cat : Catalogue) (fuel : Nat) (b : DependencyBuilder)
        (depName depVer : String) (cfg : DepConfig) (st : BState),
        depName ++ "@" ++ depVer ∈ st.buildingDeps →
        buildDependency ext cat (fuel + 1) b depName depVer cfg st =
          (b, st, some (Err.cycle (String.intercalate " -> "
            (ext.setIterOrder st.buildingDeps) ++ " -> " ++
            (depName ++ "@" ++ depVer))))) ∧
    ((buildDependency extFx catSelfDep 5 bFx "a" "1" cfgSelfDep ⟨[], [], []⟩).2.2 =
        some (Err.cycle "a@1 -> a@1") ∧
      (buildDependency extFx catSelfDep 5 bFx "a" "1" cfgSelfDep ⟨[], [], []⟩).2.1.runLog = []) := by
  constructor
  · intro ext cat fuel b depName depVer cfg st hmem
    simp [buildDependency, hmem]
  · exact ⟨rfl, rfl⟩

theorem claim1_witness :
    buildDependency extFx catSelfDep 3 bFx "a" "1" cfgSelfDep ⟨["a@1"], [], [["a@1"]]⟩ =
      (bFx, ⟨["a@1"], [], [["a@1"]]⟩, some (Err.cycle "a@1 -> a@1")) := by
  have h := claim1_cycle_detected_before_runner.1 extFx catSelfDep 2 bFx "a" "1" cfgSelfDep
    ⟨["a@1"], [], [["a@1"]]⟩ (by decide)
  exact h.trans (by rfl)

/-- C2.  For every dependency tree in which no `(name, version)` key repeats
along any single root-to-node path (`noRepeats`, which walks exactly the
nodes `build_dependency` visits, and which diamonds satisfy), running
`build_dependency` never yields the circular-dependency error, whatever the
external world answers.  The remaining conjuncts run the diamond — `r`
depends on `b` and `c`, both depending on `d`, so `d@1` occurs on two
different branches — and observe that the build finishes with no error at
all. -/
theorem claim2_no_cycle_error_without_path_repeat :
    (∀ (ext : ExtWorld) (cat : Catalogue) (fuel : Nat) (b : DependencyBuilder)
        (n v : String) (cfg : DepConfig) (st : BState),
        noRepeats cat fuel b.platform st.buildingDeps n v cfg = true →
        errIsCycle (buildDependency ext cat fuel b n v cfg st).2.2 = false) ∧
    (noRepeats catDiamond 6 "linux-x86_64-musl" [] "r" "1" cfgDiamondRoot = true ∧
      (buildDependency extFx catDiamond 6 bFx "r" "1" cfgDiamondRoot ⟨[], [], []⟩).2.2 = none) := by
  refine ⟨buildDependency_noCycle, by rfl, by rfl⟩

theorem claim2_witness :
    errIsCycle (buildDependency extFx catDiamond 6 bFx "r" "1" cfgDiamondRoot ⟨[], [], []⟩).2.2
      = false :=
  claim2_no_cycle_error_without_path_repeat.1 extFx catDiamond 6 bFx "r" "1" cfgDiamondRoot
    ⟨[], [], []⟩ (by rfl)

/-- C3.  The enter/leave discipline of the in-progress set: on every exit
path of `build_dependency` — success, skipped build, build-command failure,
hash failure, missing-version error, sub-dependency failure or the cycle
check itself — the in-progress set after the call equals the set before it
(every insertion is paired with its removal); and whenever the session state
satisfies the at-most-once invariant (`stateOk`: the current set and every
value the set has taken, recorded in the ghost trace, are duplicate-free),
the state after the call still satisfies it — so each `DependencyKey` is
present in the set at most once at every point during the build. -/
theorem claim3_inprogress_set_discipline :
    ∀ (ext : ExtWorld) (cat : Catalogue) (fuel : Nat) (b : DependencyBuilder)
      (n v : String) (cfg : DepConfig) (st : BState),
      ((buildDependency ext cat fuel b n v cfg st).2.1).buildingDeps = st.buildingDeps ∧
      (stateOk st → stateOk ((buildDependency ext cat fuel b n v cfg st).2.1)) :=
  fun ext cat fuel b n v cfg st => buildDependency_state ext cat fuel b n v cfg st

theorem claim3_witness :
    ((buildDependency extFx catDiamond 6 bFx "r" "1" cfgDiamondRoot ⟨[], [], []⟩).2.1).buildingDeps
        = [] ∧
    stateOk ((buildDependency extFx catDiamond 6 bFx "r" "1" cfgDiamondRoot ⟨[], [], []⟩).2.1) := by
  have h := claim3_inprogress_set_discipline extFx catDiamond 6 bFx "r" "1" cfgDiamondRoot
    ⟨[], [], []⟩
  exact ⟨h.1, h.2 (by decide)⟩

/-- C4 counterexample.  The claim asserts that `\x7bOTHER_VAR\x7d` syntax
introduced into the result by a substituted value is never expanded,
regardless of the order of keys in the environment.  For the input text
`\x7bB\x7d` with environment order `B` before `A`, where `B`'s value
introduces `\x7bA\x7d`, the code returns `"x"`: the introduced `\x7bA\x7d`
WAS expanded by the later iteration for `A`, contradicting the claim, which
requires the result `\x7bA\x7d`. -/
theorem claim4_counterexample :
    substituteVars "\x7bB\x7d" [("B", "\x7bA\x7d"), ("A", "x")] = "x" ∧
    substituteVars "\x7bB\x7d" [("B", "\x7bA\x7d"), ("A", "x")] ≠ "\x7bA\x7d" := by
  exact ⟨rfl, by decide⟩

/-- C4 as amended.  `substitute_vars` is not a single pass over the original
text: it iterates the environment's keys in order, each performing a textual
replace on the evolving result.  Consequently substitution decomposes
sequentially over the key list (first conjunct), placeholder syntax
introduced by a substituted value survives exactly when its variable does
not occur later in the iteration order — the spec's own example
`substitute("\x7bA\x7d/\x7bB\x7d", \x7bA: "x", B: "\x7bA\x7d"\x7d) = "x/\x7bA\x7d"`
holds because `A` precedes `B` (second conjunct) — and is expanded when the
variable occurs later in the order (third conjunct). -/
theorem claim4_sequential_not_single_pass :
    (∀ (text : String) (env1 : List (String × String)) (kv : String × String)
        (env2 : List (String × String)),
        substituteVars text (env1 ++ kv :: env2) =
          substituteVars (substituteVars (substituteVars text env1) [kv]) env2) ∧
    substituteVars "\x7bA\x7d/\x7bB\x7d" [("A", "x"), ("B", "\x7bA\x7d")] = "x/\x7bA\x7d" ∧
    substituteVars "\x7bB\x7d" [("B", "\x7bA\x7d"), ("A", "x")] = "x" := by
  refine ⟨?_, rfl, rfl⟩
  intro text env1 kv env2
  simp [substituteVars, List.foldl_append]

/-- C5.  `merge_global_env` iterates every pattern of the rule set in
declared order, overwriting per key, so the merged value of each key is the
one assigned by the LAST matching pattern that binds it (`lastMatchValue`,
written from the spec's words); in particular for the rule set
`[(".*", V=1), ("linux-.*", V=2)]` the platform `linux-x86_64-musl` gets
`V = "2"` while `darwin-x86_64` gets `V = "1"`. -/
theorem claim5_last_match_wins_per_key :
    (∀ (configEnv : GlobalEnvRules) (platform k : String),
        dictGet (mergeGlobalEnv configEnv platform) k = lastMatchValue configEnv platform k) ∧
    dictGet (mergeGlobalEnv [(".*", [("V", "1")]), ("linux-.*", [("V", "2")])]
      "linux-x86_64-musl") "V" = some "2" ∧
    dictGet (mergeGlobalEnv [(".*", [("V", "1")]), ("linux-.*", [("V", "2")])]
      "darwin-x86_64") "V" = some "1" := by
  refine ⟨?_, rfl, rfl⟩
  intro configEnv platform k
  have h := mergeGlobalEnv_foldl_chars configEnv platform k []
  simpa [mergeGlobalEnv, dictGet, optOr_none_right] using h

/-- C6.  The per-command accumulation of `_execute_build`: for any single
fragment binding `(k, v)` (whose value is first substituted against the
builder's environment), the resulting value of `k` is — set if previously
unset; `existing ++ " " ++ new` when both are non-empty; the non-empty side
(Python's `value or existing`) when either is empty.  Applying the two
fragments `FLAGS="-O2"` then `FLAGS="-g"` to the same base environment
accumulates `FLAGS = "-O2 -g"`. -/
theorem claim6_per_command_accumulation :
    (∀ (benv : List (String × String)) (k v : String) (senv : List (String × String)),
        dictGet (mergeBuildConfigEnv benv [(k, v)] senv) k =
          match dictGet benv k with
          | none => some (substituteVars v senv)
          | some existing =>
            if existing ≠ "" ∧ substituteVars v senv ≠ "" then
              some (existing ++ " " ++ substituteVars v senv)
            else some (if substituteVars v senv ≠ "" then substituteVars v senv
              else existing)) ∧
    dictGet (mergeBuildConfigEnv (mergeBuildConfigEnv [("X", "y")] [("FLAGS", "-O2")] [])
      [("FLAGS", "-g")] []) "FLAGS" = some "-O2 -g" := by
  refine ⟨?_, rfl⟩
  intro benv k v senv
  simp only [mergeBuildConfigEnv, List.foldl_cons, List.foldl_nil]
  cases h : dictGet benv k with
  | none => simp [h, dictGet_dictSet_self]
  | some existing =>
    simp only [h]
    split_ifs with h2 <;> simp [dictGet_dictSet_self]

/-- C7.  Platform-keyed selection is first-match-wins: all three resolvers
(`get_build_config`, `get_artifacts`, `get_dependencies`) return the value
of the first pattern in declared order matching the platform
(`selectForPlatform`, written from the spec's words) — the concrete rule set
`[("linux-.*", A), (".*", B)]` yields `A` for `linux-x86_64-glibc`, the
first match rather than the most specific.  Absence of any match yields
nothing: `none`/`[]` from the resolvers, and at a dependency node a missing
build rule is a skip — the build returns no error and logs no runner
invocation — while at the top-level plugin build it is a raised
configuration error. -/
theorem claim7_first_match_and_absence_policy :
    (∀ (rules : List (String × BuildConfig)) (platform : String),
        getBuildConfig rules platform = selectForPlatform rules platform) ∧
    (∀ (rules : List (String × List String)) (platform : String),
        getArtifacts rules platform = (selectForPlatform rules platform).getD []) ∧
    (∀ (rules : List (String × List (String × String))) (platform : String),
        getDependencies rules platform = (selectForPlatform rules platform).getD []) ∧
    getArtifacts [("linux-.*", ["A"]), (".*", ["B"])] "linux-x86_64-glibc" = ["A"] ∧
    (∀ (ext : ExtWorld) (workdir : String) (prefixdir : Option String) (platform : String)
        (nproc : Nat) (env : List (String × String)) (release : ReleaseConfig) (st : BState),
        getBuildConfig release.build platform = none →
        pluginBuildPlugin ext workdir prefixdir platform nproc env release st =
          (st, some (Err.noBuildConfig platform))) ∧
    (∀ (ext : ExtWorld) (cat : Catalogue) (fuel : Nat) (b : DependencyBuilder)
        (n v : String) (cfg : DepConfig) (vc : VersionConfig) (st : BState),
        n ++ "@" ++ v ∉ st.buildingDeps →
        dictGet cfg.versions v = some vc →
        getDependencies vc.dependencies b.platform = [] →
        vc.type = "tarball" → vc.hash = none →
        getBuildConfig vc.build b.platform = none →
        (buildDependency ext cat (fuel + 1) b n v cfg st).2.2 = none ∧
        ((buildDependency ext cat (fuel + 1) b n v cfg st).2.1).runLog = st.runLog) := by
  refine ⟨getBuildConfig_eq_select, getArtifacts_eq_select, getDependencies_eq_select,
    rfl, ?_, ?_⟩
  · intro ext workdir prefixdir platform nproc env release st h
    simp [pluginBuildPlugin, h]
  · intro ext cat fuel b n v cfg vc st hmem hver hdeps hty hhash hbc
    simp [buildDependency, buildDependencyBody, buildSubDependencies, goSubDeps,
      acquireSource, applyFinally, hmem, hver, hdeps, hty, hhash, hbc,
      erase_append_singleton _ _ hmem]

theorem claim7_witness :
    (pluginBuildPlugin extFx "/w" none "linux-x86_64-musl" 1 [] relNoBuild ⟨[], [], []⟩ =
      (⟨[], [], []⟩, some (Err.noBuildConfig "linux-x86_64-musl"))) ∧
    ((buildDependency extFx [] 3 bFx "s" "1" cfgSkip ⟨[], [], []⟩).2.2 = none ∧
      ((buildDependency extFx [] 3 bFx "s" "1" cfgSkip ⟨[], [], []⟩).2.1).runLog = []) := by
  constructor
  · exact claim7_first_match_and_absence_policy.2.2.2.2.1 extFx "/w" none
      "linux-x86_64-musl" 1 [] relNoBuild ⟨[], [], []⟩ (by rfl)
  · exact claim7_first_match_and_absence_policy.2.2.2.2.2 extFx [] 2 bFx "s" "1" cfgSkip
      vcSkip ⟨[], [], []⟩ (by decide) (by rfl) (by rfl) (by rfl) (by rfl) (by rfl)

/-- C8 counterexample.  The claim requires that a dependency name referenced
by a dependency node's own sub-dependency list but absent from the catalogue
fails the build with a configuration error.  The code instead skips it with
a warning: building `a@1`, whose sub-dependency list references `ghost@1`
while the catalogue holds only `a`, completes with no error at all. -/
theorem claim8_counterexample :
    (buildDependency extFx catGhost 4 bFx "a" "1" cfgGhostParent ⟨[], [], []⟩).2.2 = none := by
  rfl

/-- C8 as amended.  A dependency name absent from the catalogue is a hard
configuration error only at the release level: `PluginBuilder`'s dependency
loop raises `Dependency ... not found` as soon as it reaches the missing
name (first conjunct); inside a dependency node's own sub-dependency list
the missing name is skipped with a warning and the loop continues as if the
entry were not listed (second conjunct). -/
theorem claim8_release_error_subdep_skip :
    (∀ (ext : ExtWorld) (cat : Catalogue) (fuel : Nat) (n v : String)
        (rest : List (String × String)) (db : DependencyBuilder) (st : BState),
        dictGet cat n = none →
        goPluginDeps ext cat fuel ((n, v) :: rest) db st =
          (st, some (Err.missingDependency n))) ∧
    (∀ (cat : Catalogue) (mkSub : String → DependencyBuilder)
        (build : DependencyBuilder → String → String → DepConfig → BState →
          DependencyBuilder × BState × Option Err)
        (n v : String) (rest : List (String × String)) (st : BState),
        dictGet cat n = none →
        goSubDeps cat mkSub build ((n, v) :: rest) st =
          goSubDeps cat mkSub build rest st) := by
  constructor
  · intro ext cat fuel n v rest db st h
    simp [goPluginDeps, h]
  · intro cat mkSub build n v rest st h
    simp [goSubDeps, h]

theorem claim8_witness :
    (goPluginDeps extFx catGhost 4 [("ghost", "1")] bFx ⟨[], [], []⟩ =
      (⟨[], [], []⟩, some (Err.missingDependency "ghost"))) ∧
    (goSubDeps catGhost (mkSubBuilder extFx bFx)
        (buildDependency extFx catGhost 3) [("ghost", "1")] ⟨[], [], []⟩ =
      goSubDeps catGhost (mkSubBuilder extFx bFx)
        (buildDependency extFx catGhost 3) [] ⟨[], [], []⟩) := by
  constructor
  · exact claim8_release_error_subdep_skip.1 extFx catGhost 4 "ghost" "1" [] bFx
      ⟨[], [], []⟩ (by rfl)
  · exact claim8_release_error_subdep_skip.2 catGhost (mkSubBuilder extFx bFx)
      (buildDependency extFx catGhost 3) "ghost" "1" [] ⟨[], [], []⟩ (by rfl)

/-- C9 counterexample.  The claim asserts that `update_build_env` folds
toolchain variables under the same additive policy as the per-command
overrides, which takes the non-empty side when either side is empty.  With
an existing empty `CC` and the toolchain value `"gcc"`, `update_build_env`
keeps the empty existing value, while the per-command policy
(`mergeBuildConfigEnv`) takes `"gcc"` — the two policies disagree at this
input. -/
theorem claim9_counterexample :
    updateBuildEnv [("CC", "")] [("CC", "gcc")] none = [("CC", "")] ∧
    mergeBuildConfigEnv [("CC", "")] [("CC", "gcc")] [] = [("CC", "gcc")] ∧
    updateBuildEnv [("CC", "")] [("CC", "gcc")] none ≠
      mergeBuildConfigEnv [("CC", "")] [("CC", "gcc")] [] := by
  exact ⟨rfl, rfl, by decide⟩

/-- C9 as amended.  `update_build_env` accumulates each toolchain variable
as follows: set if unset; `existing ++ " " ++ new` when both the new and the
existing value are non-empty; otherwise the existing value is left unchanged
(even when it is empty and the new value is not — this is where it differs
from the per-command policy).  The toolchain bin directory, when present, is
prepended (not appended) to `PATH`, or becomes `PATH` when `PATH` is
unset. -/
theorem claim9_toolchain_fold_policy :
    (∀ (benv : List (String × String)) (k v : String),
        dictGet (updateBuildEnv benv [(k, v)] none) k =
          match dictGet benv k with
          | none => some v
          | some existing =>
            if v ≠ "" ∧ existing ≠ "" then some (existing ++ " " ++ v)
            else some existing) ∧
    (∀ (benv : List (String × String)) (bp : String),
        dictGet (updateBuildEnv benv [] (some bp)) "PATH" =
          match dictGet benv "PATH" with
          | none => some bp
          | some p => some (bp ++ ":" ++ p)) := by
  constructor
  · intro benv k v
    simp only [updateBuildEnv, List.foldl_cons, List.foldl_nil]
    cases h : dictGet benv k with
    | none => simp [h, dictGet_dictSet_self]
    | some existing =>
      simp only [h]
      split_ifs with h2 <;> simp [h, dictGet_dictSet_self]
  · intro benv bp
    simp only [updateBuildEnv, List.foldl_nil]
    cases h : dictGet benv "PATH" with
    | none => simp [h, dictGet_dictSet_self]
    | some p => simp [h, dictGet_dictSet_self]

/-- C10.  `_execute_build` never mutates the builder: the returned `self` is
exactly the input builder (in particular `self.env` is untouched), the
in-progress set and its ghost trace are untouched, the only state effect is
appending to the process-invocation log, and the per-step build environment
a later step would compute is identical whether or not this step ran — the
per-command overrides and substitutions live only in the fresh copy of the
ambient process environment built for the step, so nothing accumulated
during one node's build step carries over into any later step. -/
theorem claim10_executeBuild_no_builder_mutation :
    ∀ (ext : ExtWorld) (b : DependencyBuilder) (bc : BuildConfig) (st : BState),
      (executeBuild ext b bc st).1 = b ∧
      ((executeBuild ext b bc st).2.1).buildingDeps = st.buildingDeps ∧
      ((executeBuild ext b bc st).2.1).depsTrace = st.depsTrace ∧
      (∃ t, ((executeBuild ext b bc st).2.1).runLog = st.runLog ++ t) ∧
      (∀ bc2 : BuildConfig,
        computeBuildEnv ext (executeBuild ext b bc st).1 bc2 = computeBuildEnv ext b bc2) := by
  intro ext b bc st
  have hf := executeBuild_frame ext b bc st
  refine ⟨hf.1, hf.2.1.1, hf.2.1.2, ?_, fun bc2 => by rw [hf.1]⟩
  obtain ⟨t, ht⟩ := runCommands_runLog ext b (computeBuildEnv ext b bc) bc.commands b.workdir st
  exact ⟨t, ht.symm⟩
